import Mathlib

/-
Verification of the behavioral core of the ultimate-fish-tank aquarium
simulation.  The development shallowly embeds the data model and the
operations of the TypeScript source:

  * Fish stats and their mutators (src/fish/Fish.ts: updateStats, feed,
    pet, setSelected, destroy),
  * the food lifecycle manager (src/food/FoodSystem.ts: dropFoodParticles,
    eatFoodParticle, removeFoodParticle, getFoodParticles),
  * the engine interaction pass (src/core/Engine.ts:
    updateFoodFishInteractions),
  * the fish registry selection logic (src/fish/FishSystem.ts: selectFish,
    deselectFish),
  * the event bus (src/core/EventSystem.ts: on, off, emit, update,
    processEvent),
  * the economy layer (src/game/GameLogic.ts: coin rewards, guarded coin
    spending, achievements, level-ups).

Numbers that are IEEE doubles in the source are embedded as exact
rationals; the sequences of additions, subtractions, min/max clamps and
comparisons performed by the source are preserved verbatim.  Euclidean
distance comparisons (d < r, d <= r with r >= 0) are embedded as the
equivalent squared-distance comparisons to stay inside the rationals.
JavaScript object identity for food particles is embedded by giving each
particle a numeric identity and keeping a heap of all particle objects
next to the live array, so that a particle object stays observable (for
example, its eaten flag) after it has been spliced out of the array.
-/

/-! ## Fish stats (src/fish/Fish.ts)

The observable data of one fish: the three stats, the interaction
timestamps and the consecutive-pet counter, exactly the fields of
FishData that the public operations mutate. -/

structure FishData where
  health : ℚ
  happiness : ℚ
  hunger : ℚ
  lastFed : Option ℚ
  lastPetted : Option ℚ
  consecutivePets : ℕ
deriving Repr, DecidableEq

/-- A fish: its data plus the parts of its state touched by destroy().
The source has no destroyed flag; destroy only removes the mesh from the
scene and the body from the physics world, leaving data untouched. -/
structure Fish where
  fid : ℕ
  data : FishData
  isSelected : Bool
  meshInScene : Bool
  bodyInWorld : Bool
deriving Repr, DecidableEq

/-- Fish.updateStats(deltaTime): hunger -= minutes*2 (floor 0); if the
updated hunger is below 20, health -= minutes*0.5 (floor 0); happiness
-= minutes*0.5 (floor 0).  deltaTime is in milliseconds. -/
def Fish.updateStats (dtMs : ℚ) (f : Fish) : Fish :=
  let minutesPassed := dtMs / (1000 * 60)
  let hunger1 := max 0 (f.data.hunger - minutesPassed * 2)
  let health1 :=
    if hunger1 < 20 then max 0 (f.data.health - minutesPassed * (1/2)) else f.data.health
  let happiness1 := max 0 (f.data.happiness - minutesPassed * (1/2))
  { f with data := { f.data with hunger := hunger1, health := health1, happiness := happiness1 } }

/-- Fish.feed(): hunger +25 and happiness +10, both capped at 100;
records the feeding timestamp. -/
def Fish.feed (now : ℚ) (f : Fish) : Fish :=
  { f with data := { f.data with
      hunger := min 100 (f.data.hunger + 25),
      happiness := min 100 (f.data.happiness + 10),
      lastFed := some now } }

/-- Fish.pet(): happiness +15 capped at 100, records the petting
timestamp, increments the consecutive-pet counter. -/
def Fish.pet (now : ℚ) (f : Fish) : Fish :=
  { f with data := { f.data with
      happiness := min 100 (f.data.happiness + 15),
      lastPetted := some now,
      consecutivePets := f.data.consecutivePets + 1 } }

/-- Fish.setSelected(selected): stores the flag (and toggles the glow
mesh, which has no observable data). -/
def Fish.setSelected (b : Bool) (f : Fish) : Fish :=
  { f with isSelected := b }

/-- Fish.destroy(): removes the mesh from the scene and the body from the
world.  No flag is set and the data record is not touched. -/
def Fish.destroy (f : Fish) : Fish :=
  { f with meshInScene := false, bodyInWorld := false }

/-- The stats invariant: health, happiness and hunger each in [0,100]. -/
def FishData.statsInRange (d : FishData) : Prop :=
  0 ≤ d.health ∧ d.health ≤ 100 ∧ 0 ≤ d.happiness ∧ d.happiness ≤ 100 ∧
    0 ≤ d.hunger ∧ d.hunger ≤ 100

instance (d : FishData) : Decidable d.statsInRange := by
  unfold FishData.statsInRange
  infer_instance

/-- One public stat operation on a fish: feed, pet, or time decay. -/
inductive FishOp where
  | feedAt (now : ℚ)
  | petAt (now : ℚ)
  | decay (dtMs : ℚ)
deriving Repr

/-- Decay steps use a non-negative elapsed time; feed and pet are always
well formed. -/
def FishOp.wellFormed : FishOp → Prop
  | FishOp.decay dt => 0 ≤ dt
  | _ => True

def Fish.applyOp (f : Fish) : FishOp → Fish
  | FishOp.feedAt now => f.feed now
  | FishOp.petAt now => f.pet now
  | FishOp.decay dt => f.updateStats dt

def Fish.applyOps (f : Fish) (ops : List FishOp) : Fish :=
  ops.foldl Fish.applyOp f

/-! ### Range preservation lemmas -/

lemma Fish.feed_statsInRange (f : Fish) (now : ℚ) (h : f.data.statsInRange) :
    (f.feed now).data.statsInRange := by
  obtain ⟨h1, h2, h3, h4, h5, h6⟩ := h
  refine ⟨h1, h2, ?_, ?_, ?_, ?_⟩ <;> simp [Fish.feed] <;> linarith

lemma Fish.pet_statsInRange (f : Fish) (now : ℚ) (h : f.data.statsInRange) :
    (f.pet now).data.statsInRange := by
  obtain ⟨h1, h2, h3, h4, h5, h6⟩ := h
  refine ⟨h1, h2, ?_, ?_, h5, h6⟩ <;> simp [Fish.pet]
  linarith

lemma Fish.updateStats_statsInRange (f : Fish) (dt : ℚ) (hdt : 0 ≤ dt)
    (h : f.data.statsInRange) : (f.updateStats dt).data.statsInRange := by
  obtain ⟨h1, h2, h3, h4, h5, h6⟩ := h
  have hm : 0 ≤ dt / (1000 * 60) := by positivity
  refine ⟨?_, ?_, ?_, ?_, ?_, ?_⟩ <;> simp only [Fish.updateStats]
  · split
    · exact le_max_left _ _
    · exact h1
  · split
    · apply max_le (by norm_num); nlinarith
    · exact h2
  · exact le_max_left _ _
  · apply max_le (by norm_num); nlinarith
  · exact le_max_left _ _
  · apply max_le (by norm_num); nlinarith

/-- C5: starting from stats in [0,100], any finite sequence of feed, pet
and non-negative time-decay operations keeps health, happiness and hunger
in [0,100]. -/
theorem fish_stats_stay_in_range (f : Fish) (ops : List FishOp)
    (h0 : f.data.statsInRange) (hw : ∀ op ∈ ops, op.wellFormed) :
    (f.applyOps ops).data.statsInRange := by
  induction ops generalizing f with
  | nil => exact h0
  | cons op rest ih =>
    have hop : (f.applyOp op).data.statsInRange := by
      cases op with
      | feedAt now => exact f.feed_statsInRange now h0
      | petAt now => exact f.pet_statsInRange now h0
      | decay dt =>
        exact f.updateStats_statsInRange dt (hw (FishOp.decay dt) (by simp)) h0
    exact ih (f.applyOp op) hop fun op2 hm => hw op2 (by simp [hm])

/-- Concrete fish used to instantiate the stat theorems. -/
def fishEx : Fish :=
  { fid := 0,
    data := { health := 90, happiness := 75, hunger := 70,
              lastFed := none, lastPetted := none, consecutivePets := 0 },
    isSelected := false, meshInScene := true, bodyInWorld := true }

/-- Witness for C5: the invariant holds after a concrete feed, pet and a
ten-minute decay on a concrete fish. -/
theorem fish_stats_stay_in_range_witness :
    (fishEx.applyOps [FishOp.feedAt 0, FishOp.petAt 1, FishOp.decay 600000]).data.statsInRange :=
  fish_stats_stay_in_range fishEx _ (by decide)
    (by intro op hop; fin_cases hop <;> simp [FishOp.wellFormed])

/-- C6: decay over m elapsed minutes (deltaTime = m*60000 ms) lowers
hunger by 2 per minute and happiness by 0.5 per minute, both clamped at a
floor of 0, and lowers health by 0.5 per minute (floor 0) exactly when
the updated hunger value is below 20 (the source tests hunger after the
hunger decrement).  In particular, from hunger 15 and health 50, a
ten-minute decay strictly decreases both health and hunger and leaves
both non-negative. -/
theorem updateStats_decay_rates (f : Fish) (m : ℚ) :
    (f.updateStats (m * 60000)).data.hunger = max 0 (f.data.hunger - 2 * m)
    ∧ ((f.updateStats (m * 60000)).data.hunger < 20 →
        (f.updateStats (m * 60000)).data.health = max 0 (f.data.health - m / 2))
    ∧ (20 ≤ (f.updateStats (m * 60000)).data.hunger →
        (f.updateStats (m * 60000)).data.health = f.data.health)
    ∧ (f.updateStats (m * 60000)).data.happiness = max 0 (f.data.happiness - m / 2)
    ∧ (f.data.hunger = 15 → f.data.health = 50 →
        (f.updateStats (10 * 60000)).data.health < 50
        ∧ (f.updateStats (10 * 60000)).data.hunger < 15
        ∧ 0 ≤ (f.updateStats (10 * 60000)).data.health
        ∧ 0 ≤ (f.updateStats (10 * 60000)).data.hunger) := by
  have hmin : ∀ q : ℚ, q * 60000 / (1000 * 60) = q := by intro q; ring
  refine ⟨?_, ?_, ?_, ?_, ?_⟩
  · simp only [Fish.updateStats, hmin]; ring_nf
  · intro hlt
    simp only [Fish.updateStats, hmin] at hlt ⊢
    rw [if_pos hlt]; ring_nf
  · intro hge
    simp only [Fish.updateStats, hmin] at hge ⊢
    rw [if_neg (by linarith)]
  · simp only [Fish.updateStats, hmin]; ring_nf
  · intro hh hhe
    simp only [Fish.updateStats, hmin, hh, hhe]
    norm_num

/-- Concrete fish for the C6 decay scenario: hunger 15, health 50. -/
def fishLowHunger : Fish :=
  { fid := 1,
    data := { health := 50, happiness := 80, hunger := 15,
              lastFed := none, lastPetted := none, consecutivePets := 0 },
    isSelected := false, meshInScene := true, bodyInWorld := true }

/-- Witness for C6: instantiating the decay theorem at the scenario fish
with m = 10 minutes. -/
theorem updateStats_decay_rates_witness :
    (fishLowHunger.updateStats (10 * 60000)).data.health < 50
    ∧ (fishLowHunger.updateStats (10 * 60000)).data.hunger < 15
    ∧ 0 ≤ (fishLowHunger.updateStats (10 * 60000)).data.health
    ∧ 0 ≤ (fishLowHunger.updateStats (10 * 60000)).data.hunger :=
  (updateStats_decay_rates fishLowHunger 10).2.2.2.2 rfl rfl

/-- Concrete fish used to refute the destroyed-entity no-op claim. -/
def fishDestroyed : Fish :=
  { fid := 2,
    data := { health := 80, happiness := 60, hunger := 50,
              lastFed := none, lastPetted := none, consecutivePets := 0 },
    isSelected := false, meshInScene := true, bodyInWorld := true }

/-- C9 counterexample: feed() on an already-destroyed fish is not a
no-op.  destroy() sets no flag and feed() has no guard, so feeding the
destroyed fish still raises hunger from 50 to 75 and records a
timestamp, changing the observable stats. -/
theorem feed_after_destroy_not_noop :
    (fishDestroyed.destroy.feed 0).data.hunger = 75
    ∧ fishDestroyed.destroy.data.hunger = 50
    ∧ (fishDestroyed.destroy.feed 0).data ≠ fishDestroyed.destroy.data := by
  refine ⟨by norm_num [fishDestroyed, Fish.destroy, Fish.feed], rfl, fun h => ?_⟩
  have := congrArg FishData.hunger h
  norm_num [fishDestroyed, Fish.destroy, Fish.feed] at this

/-- C9 amended: operations on a destroyed fish never throw (they are
total) but are not no-ops; destroy() leaves the data record untouched
and feed/pet/setSelected behave on a destroyed fish exactly as on a live
one, and stat operations keep the stats inside [0,100] (stats are exact
rationals, so no NaN can appear). -/
theorem destroyed_fish_ops_behave_like_live (f : Fish) (now : ℚ) (b : Bool) :
    f.destroy.data = f.data
    ∧ (f.destroy.feed now).data = (f.feed now).data
    ∧ (f.destroy.pet now).data = (f.pet now).data
    ∧ (f.destroy.setSelected b).data = (f.setSelected b).data
    ∧ (f.data.statsInRange →
        (f.destroy.feed now).data.statsInRange ∧ (f.destroy.pet now).data.statsInRange) := by
  refine ⟨rfl, rfl, rfl, rfl, fun h => ⟨?_, ?_⟩⟩
  · exact Fish.feed_statsInRange _ now h
  · exact Fish.pet_statsInRange _ now h

/-- Witness for the amended C9 theorem at a concrete destroyed fish. -/
theorem destroyed_fish_ops_behave_like_live_witness :
    fishDestroyed.destroy.data = fishDestroyed.data
    ∧ (fishDestroyed.destroy.feed 3).data = (fishDestroyed.feed 3).data
    ∧ (fishDestroyed.destroy.pet 3).data = (fishDestroyed.pet 3).data
    ∧ (fishDestroyed.destroy.setSelected true).data = (fishDestroyed.setSelected true).data
    ∧ (fishDestroyed.data.statsInRange →
        (fishDestroyed.destroy.feed 3).data.statsInRange
        ∧ (fishDestroyed.destroy.pet 3).data.statsInRange) :=
  destroyed_fish_ops_behave_like_live fishDestroyed 3 true

/-! ## Food lifecycle manager (src/food/FoodSystem.ts)

A food particle object: identity, age, eaten flag, nutrition value and
(mesh/body) position.  The array this.foodParticles is embedded as the
list arr of particle identities, while heap keeps every particle object
ever created so that an object spliced out of the array remains
observable, as a retained JavaScript reference would be. -/

abbrev Vec3 : Type := ℚ × ℚ × ℚ

structure FoodParticle where
  pid : ℕ
  age : ℚ
  eaten : Bool
  nutritionValue : ℚ
  pos : Vec3
deriving Repr, DecidableEq

structure FoodSystem where
  heap : List FoodParticle
  arr : List ℕ
  maxFoodParticles : ℕ
  nextPid : ℕ
deriving Repr, DecidableEq

/-- Dereference a particle identity to the particle object. -/
def FoodSystem.obj (s : FoodSystem) (pid : ℕ) : Option FoodParticle :=
  s.heap.find? (fun p => p.pid == pid)

/-- FoodSystem.getFoodParticles(): the live array filtered to uneaten
particles. -/
def FoodSystem.getFoodParticles (s : FoodSystem) : List FoodParticle :=
  (s.arr.filterMap s.obj).filter (fun p => !p.eaten)

/-- Remove the first occurrence of an identity, as indexOf plus splice
does. -/
def removeFirstNat : List ℕ → ℕ → List ℕ
  | [], _ => []
  | x :: xs, i => if x = i then xs else x :: removeFirstNat xs i

/-- FoodSystem.removeFoodParticle(particle): splices the particle out of
the live array (scene and physics removal carry no data). -/
def FoodSystem.removeFoodParticle (s : FoodSystem) (pid : ℕ) : FoodSystem :=
  { s with arr := removeFirstNat s.arr pid }

/-- Setting particle.eaten = true on the particle object. -/
def FoodSystem.markEaten (s : FoodSystem) (pid : ℕ) : FoodSystem :=
  { s with heap := s.heap.map (fun p => if p.pid == pid then { p with eaten := true } else p) }

/-- FoodSystem.eatFoodParticle(particle): returns 0 if the particle is
already eaten; otherwise marks it eaten, removes it from the live array
and returns its nutrition value. -/
def FoodSystem.eatFoodParticle (s : FoodSystem) (pid : ℕ) : ℚ × FoodSystem :=
  match s.obj pid with
  | none => (0, s)
  | some p =>
    if p.eaten then (0, s)
    else (p.nutritionValue, (s.markEaten pid).removeFoodParticle pid)

/-- FoodSystem.createFoodParticle: a fresh uneaten particle at the jittered
drop position with nutrition 1 + rand*2, rand drawn from [0,1). -/
def FoodSystem.createFoodParticle (s : FoodSystem) (rand : ℚ) (pos : Vec3) : FoodParticle :=
  { pid := s.nextPid, age := 0, eaten := false, nutritionValue := 1 + rand * 2, pos := pos }

/-- One iteration of the dropFoodParticles loop: if the array is at
capacity, the oldest particle (index 0) is removed first, then the new
particle is created and pushed. -/
def FoodSystem.dropOne (s : FoodSystem) (rand : ℚ) (pos : Vec3) : FoodSystem :=
  let s1 :=
    if s.maxFoodParticles ≤ s.arr.length then
      match s.arr with
      | [] => s
      | pid0 :: _ => s.removeFoodParticle pid0
    else s
  let p := s1.createFoodParticle rand pos
  { s1 with heap := s1.heap ++ [p], arr := s1.arr ++ [p.pid], nextPid := s1.nextPid + 1 }

/-- FoodSystem.dropFoodParticles(position, count): count iterations of
the create loop; each entry of rands carries the randomness (nutrition
draw and jittered position) of one created particle. -/
def FoodSystem.dropFoodParticles (s : FoodSystem) (rands : List (ℚ × Vec3)) : FoodSystem :=
  rands.foldl (fun t r => t.dropOne r.1 r.2) s

/-! ### Food particle lemmas -/

lemma FoodSystem.obj_pid (s : FoodSystem) (i : ℕ) (q : FoodParticle)
    (h : s.obj i = some q) : q.pid = i := by
  have := List.find?_some h
  simpa using this

lemma find?_map_setEaten (l : List FoodParticle) (pid : ℕ) :
    (l.map (fun p => if p.pid == pid then { p with eaten := true } else p)).find?
        (fun p => p.pid == pid)
      = (l.find? (fun p => p.pid == pid)).map (fun p => { p with eaten := true }) := by
  rw [List.find?_map]
  have hpred : ((fun p : FoodParticle => p.pid == pid)
        ∘ fun p => if p.pid == pid then { p with eaten := true } else p)
      = (fun p : FoodParticle => p.pid == pid) := by
    funext p
    by_cases h : p.pid = pid <;> simp [h]
  rw [hpred]
  cases hfind : l.find? (fun p => p.pid == pid) with
  | none => rfl
  | some p0 =>
    have hp0 : p0.pid = pid := by simpa using List.find?_some hfind
    simp [hp0]

lemma FoodSystem.obj_markEaten (s : FoodSystem) (pid : ℕ) :
    (s.markEaten pid).obj pid = (s.obj pid).map (fun p => { p with eaten := true }) := by
  simp only [FoodSystem.obj, FoodSystem.markEaten]
  exact find?_map_setEaten s.heap pid

lemma FoodSystem.obj_removeFoodParticle (s : FoodSystem) (i pid : ℕ) :
    (s.removeFoodParticle i).obj pid = s.obj pid := rfl

lemma not_mem_removeFirstNat (l : List ℕ) (i : ℕ) (h : l.Nodup) :
    i ∉ removeFirstNat l i := by
  induction l with
  | nil => simp [removeFirstNat]
  | cons x xs ih =>
    rw [List.nodup_cons] at h
    by_cases hx : x = i
    · simpa [removeFirstNat, hx] using hx ▸ h.1
    · simp only [removeFirstNat, if_neg hx, List.mem_cons]
      push_neg
      exact ⟨fun he => hx he.symm, ih h.2⟩

/-- C7: on a live (uneaten, positive-nutrition) particle, the first
eatFoodParticle call returns the positive nutrition value and, in the
same step, marks the particle eaten and removes it from the live array;
every subsequent call on the same particle returns 0, and the particle
is absent from the getFoodParticles query. -/
theorem eatFoodParticle_once (s : FoodSystem) (pid : ℕ) (p : FoodParticle)
    (hp : s.obj pid = some p) (he : p.eaten = false) (hn : 0 < p.nutritionValue)
    (hdup : s.arr.Nodup) :
    (s.eatFoodParticle pid).1 = p.nutritionValue
    ∧ 0 < (s.eatFoodParticle pid).1
    ∧ (s.eatFoodParticle pid).2.obj pid = some { p with eaten := true }
    ∧ pid ∉ (s.eatFoodParticle pid).2.arr
    ∧ ((s.eatFoodParticle pid).2.eatFoodParticle pid).1 = 0
    ∧ ∀ q ∈ (s.eatFoodParticle pid).2.getFoodParticles, q.pid ≠ pid := by
  have heat : s.eatFoodParticle pid
      = (p.nutritionValue, (s.markEaten pid).removeFoodParticle pid) := by
    simp [FoodSystem.eatFoodParticle, hp, he]
  have hobj2 : ((s.markEaten pid).removeFoodParticle pid).obj pid
      = some { p with eaten := true } := by
    rw [FoodSystem.obj_removeFoodParticle, FoodSystem.obj_markEaten, hp]
    rfl
  have harr2 : ((s.markEaten pid).removeFoodParticle pid).arr = removeFirstNat s.arr pid := rfl
  refine ⟨by rw [heat], by rw [heat]; exact hn, by rw [heat]; exact hobj2, ?_, ?_, ?_⟩
  · rw [heat, harr2]
    exact not_mem_removeFirstNat s.arr pid hdup
  · rw [heat]
    simp [FoodSystem.eatFoodParticle, hobj2]
  · intro q hq
    rw [heat] at hq
    simp only [FoodSystem.getFoodParticles, List.mem_filter, List.mem_filterMap] at hq
    obtain ⟨⟨i, hi, hqi⟩, _⟩ := hq
    have hpid := FoodSystem.obj_pid _ i q hqi
    intro hqp
    rw [hpid] at hqp
    rw [harr2, hqp] at hi
    exact not_mem_removeFirstNat s.arr pid hdup hi

/-- Concrete one-particle food system for the C7 witness. -/
def foodSysEx : FoodSystem :=
  { heap := [{ pid := 0, age := 0, eaten := false, nutritionValue := 2, pos := (0, 0, 0) }],
    arr := [0], maxFoodParticles := 50, nextPid := 1 }

/-- Witness for C7 at the concrete one-particle system. -/
theorem eatFoodParticle_once_witness :
    (foodSysEx.eatFoodParticle 0).1
        = ({ pid := 0, age := 0, eaten := false, nutritionValue := 2, pos := (0, 0, 0) }
            : FoodParticle).nutritionValue
    ∧ 0 < (foodSysEx.eatFoodParticle 0).1
    ∧ (foodSysEx.eatFoodParticle 0).2.obj 0
        = some { pid := 0, age := 0, eaten := true, nutritionValue := 2, pos := (0, 0, 0) }
    ∧ 0 ∉ (foodSysEx.eatFoodParticle 0).2.arr
    ∧ ((foodSysEx.eatFoodParticle 0).2.eatFoodParticle 0).1 = 0
    ∧ ∀ q ∈ (foodSysEx.eatFoodParticle 0).2.getFoodParticles, q.pid ≠ 0 :=
  eatFoodParticle_once foodSysEx 0
    { pid := 0, age := 0, eaten := false, nutritionValue := 2, pos := (0, 0, 0) }
    rfl rfl (by norm_num) (by decide)

/-- Dropping one particle while the live array is at (or beyond) capacity
evicts exactly the oldest particle (index 0) and appends the new one. -/
lemma FoodSystem.dropOne_at_capacity (s : FoodSystem) (a : ℚ) (b : Vec3) (h0 : ℕ)
    (t : List ℕ) (harr : s.arr = h0 :: t) (hcond : s.maxFoodParticles ≤ s.arr.length) :
    (s.dropOne a b).arr = t ++ [s.nextPid]
    ∧ (s.dropOne a b).maxFoodParticles = s.maxFoodParticles
    ∧ (s.dropOne a b).nextPid = s.nextPid + 1 := by
  have hcond2 : s.maxFoodParticles ≤ t.length + 1 := by
    rw [harr] at hcond
    simpa using hcond
  refine ⟨?_, ?_, ?_⟩ <;>
    simp [FoodSystem.dropOne, harr, FoodSystem.removeFoodParticle,
      FoodSystem.createFoodParticle, removeFirstNat, hcond2]

/-- C8: a dropFood call that starts with the live array exactly at the
capacity bound evicts one oldest particle per particle created, keeping
the count at the bound and preserving FIFO order among the survivors:
the result is the original array without its first count entries,
followed by the freshly created identities in creation order. -/
theorem dropFood_at_capacity (s : FoodSystem) (rands : List (ℚ × Vec3))
    (hcap : s.arr.length = s.maxFoodParticles)
    (hc : rands.length ≤ s.maxFoodParticles)
    (hmax : 1 ≤ s.maxFoodParticles) :
    (s.dropFoodParticles rands).arr
      = s.arr.drop rands.length ++ (List.range rands.length).map (fun k => s.nextPid + k)
    ∧ (s.dropFoodParticles rands).arr.length = s.maxFoodParticles := by
  induction rands generalizing s with
  | nil =>
    refine ⟨by simp [FoodSystem.dropFoodParticles], ?_⟩
    simpa [FoodSystem.dropFoodParticles] using hcap
  | cons r rest ih =>
    obtain ⟨h0, t, harr⟩ : ∃ h0 t, s.arr = h0 :: t := by
      cases he : s.arr with
      | nil => rw [he] at hcap; simp at hcap; omega
      | cons x y => exact ⟨x, y, rfl⟩
    have htlen : t.length + 1 = s.maxFoodParticles := by
      rw [← hcap, harr]; rfl
    obtain ⟨ha1, hm1, hn1⟩ :=
      s.dropOne_at_capacity r.1 r.2 h0 t harr hcap.ge
    have hfold : s.dropFoodParticles (r :: rest) = (s.dropOne r.1 r.2).dropFoodParticles rest := rfl
    have hcap2 : (s.dropOne r.1 r.2).arr.length = (s.dropOne r.1 r.2).maxFoodParticles := by
      rw [ha1, hm1]
      simpa using htlen
    have hrest : rest.length ≤ t.length := by
      have := hc
      simp only [List.length_cons] at this
      omega
    have hc2 : rest.length ≤ (s.dropOne r.1 r.2).maxFoodParticles := by
      rw [hm1]; omega
    have hmax2 : 1 ≤ (s.dropOne r.1 r.2).maxFoodParticles := by rw [hm1]; exact hmax
    obtain ⟨iha, ihl⟩ := ih (s.dropOne r.1 r.2) hcap2 hc2 hmax2
    constructor
    · rw [hfold, iha, ha1, hn1, harr]
      rw [List.drop_append_of_le_length hrest]
      simp only [List.length_cons, List.drop_succ_cons]
      rw [List.range_succ_eq_map, List.map_cons, List.map_map]
      have hmc : (List.range rest.length).map ((fun k => s.nextPid + k) ∘ Nat.succ)
          = (List.range rest.length).map (fun k => s.nextPid + 1 + k) := by
        apply List.map_congr_left
        intro x hx
        simp
        omega
      rw [hmc]
      simp [List.append_assoc]
    · rw [hfold, ihl, hm1]

/-- Empty food manager with capacity bound 5, for the C8 scenario. -/
def foodEmpty5 : FoodSystem :=
  { heap := [], arr := [], maxFoodParticles := 5, nextPid := 0 }

/-- Fixed randomness for one created particle. -/
def foodRand : ℚ × Vec3 := (1/2, (0, 0, 0))

/-- The manager after dropping 5 particles into the empty capacity-5
manager. -/
def foodFull5 : FoodSystem := foodEmpty5.dropFoodParticles (List.replicate 5 foodRand)

/-- Witness for C8: the dropFood(5)-then-dropFood(1) scenario.  After the
sixth drop the live array still holds exactly 5 particles, the very first
particle (identity 0) is gone, and the survivors keep FIFO order. -/
theorem dropFood_at_capacity_witness :
    foodFull5.arr = [0, 1, 2, 3, 4]
    ∧ (foodFull5.dropFoodParticles [foodRand]).arr
        = foodFull5.arr.drop 1 ++ (List.range 1).map (fun k => foodFull5.nextPid + k)
    ∧ (foodFull5.dropFoodParticles [foodRand]).arr.length = foodFull5.maxFoodParticles
    ∧ (foodFull5.dropFoodParticles [foodRand]).arr = [1, 2, 3, 4, 5]
    ∧ 0 ∉ (foodFull5.dropFoodParticles [foodRand]).arr := by
  have h := dropFood_at_capacity foodFull5 [foodRand] (by decide) (by decide) (by decide)
  exact ⟨by decide, h.1, h.2, by decide, by decide⟩

/-! ## Interaction coordinator (src/core/Engine.ts updateFoodFishInteractions)

The engine-side pass needs, per fish, only its position and its
food-target state.  The fish-side food methods (setFoodTarget,
isChasingFood, getFoodDetectionRadius) are declared on Fish but their
bodies are not part of the sources; they are modelled from the spec
below.  Distance comparisons are embedded squared: d < 0.3 becomes
d*d < 9/100 and d <= r becomes d*d <= r*r, exact for r >= 0. -/

/-- Squared Euclidean distance between two positions. -/
def dist2 (a b : Vec3) : ℚ :=
  (a.1 - b.1) * (a.1 - b.1) + (a.2.1 - b.2.1) * (a.2.1 - b.2.1)
    + (a.2.2 - b.2.2) * (a.2.2 - b.2.2)

/-- The coordinator view of one fish: identity, position, detection
radius, chasing flag and current food target. -/
structure TankFish where
  fid : ℕ
  pos : Vec3
  foodDetectionRadius : ℚ
  chasingFood : Bool
  foodTarget : Option Vec3
deriving Repr, DecidableEq

/-- Modelled from the spec: Fish.setFoodTarget(position) stores the food
position as the current target and raises the chasing-food flag; the
method body is absent from the sources (spec 4.5: "set this food
position as the entity's target"; data model: "current food target
(optional position), chasing-food flag"). -/
def TankFish.setFoodTarget (p : Vec3) (f : TankFish) : TankFish :=
  { f with foodTarget := some p, chasingFood := true }

/-- Modelled from the spec: Fish.isChasingFood() reads the chasing-food
flag; the method body is absent from the sources. -/
def TankFish.isChasingFood (f : TankFish) : Bool := f.chasingFood

/-- The tick-level state the interaction pass touches: the food system,
the fish list and the fishFed events emitted with positive nutrition. -/
structure TankState where
  food : FoodSystem
  fishes : List TankFish
  fedEvents : List (ℕ × ℕ)
deriving Repr, DecidableEq

/-- Current value of particle.eaten read through the object reference
(absent objects read as eaten so that no branch fires on them). -/
def eatenNow (food : FoodSystem) (pid : ℕ) : Bool :=
  ((food.obj pid).map FoodParticle.eaten).getD true

/-- The body of the inner fish.forEach callback for one particle: eat if
within the 0.3 eat threshold and the particle is still uneaten (emitting
fishFed when the returned nutrition is positive), otherwise acquire the
particle as food target if within the detection radius and not already
chasing. -/
def stepFish (pid : ℕ) (ppos : Vec3) (food : FoodSystem) (fed : List (ℕ × ℕ))
    (f : TankFish) : FoodSystem × List (ℕ × ℕ) × TankFish :=
  if dist2 f.pos ppos < 9/100 ∧ eatenNow food pid = false then
    let r := food.eatFoodParticle pid
    if 0 < r.1 then (r.2, fed ++ [(f.fid, pid)], f) else (r.2, fed, f)
  else if dist2 f.pos ppos ≤ f.foodDetectionRadius * f.foodDetectionRadius
      ∧ f.isChasingFood = false then
    (food, fed, f.setFoodTarget ppos)
  else (food, fed, f)

/-- The inner fish.forEach loop over the fish list for one particle. -/
def runFishLoop (pid : ℕ) (ppos : Vec3) :
    FoodSystem → List (ℕ × ℕ) → List TankFish → FoodSystem × List (ℕ × ℕ) × List TankFish
  | food, fed, [] => (food, fed, [])
  | food, fed, f :: rest =>
    let r1 := stepFish pid ppos food fed f
    let r2 := runFishLoop pid ppos r1.1 r1.2.1 rest
    (r2.1, r2.2.1, r1.2.2 :: r2.2.2)

/-- UltimateFishTank.updateFoodFishInteractions(): snapshot the live
uneaten particles, then for each particle (re-checking its eaten flag
through the object) run the inner fish loop. -/
def updateFoodFishInteractions (st : TankState) : TankState :=
  (st.food.getFoodParticles.map FoodParticle.pid).foldl
    (fun acc pid =>
      match acc.food.obj pid with
      | none => acc
      | some p =>
        if p.eaten then acc
        else
          let r := runFishLoop pid p.pos acc.food acc.fedEvents acc.fishes
          { food := r.1, fishes := r.2.2, fedEvents := r.2.1 })
    st

/-- The effect of one pass on a fish that does not enter the eat branch:
the detection branch alone (target acquisition) applies. -/
def detectOnly (ppos : Vec3) (f : TankFish) : TankFish :=
  if dist2 f.pos ppos ≤ f.foodDetectionRadius * f.foodDetectionRadius
      ∧ f.chasingFood = false then
    f.setFoodTarget ppos
  else f

/-! ### Interaction pass lemmas -/

lemma runFishLoop_append (pid : ℕ) (ppos : Vec3) (fs1 fs2 : List TankFish) :
    ∀ food fed, runFishLoop pid ppos food fed (fs1 ++ fs2)
      = ((runFishLoop pid ppos (runFishLoop pid ppos food fed fs1).1
            (runFishLoop pid ppos food fed fs1).2.1 fs2).1,
         (runFishLoop pid ppos (runFishLoop pid ppos food fed fs1).1
            (runFishLoop pid ppos food fed fs1).2.1 fs2).2.1,
         (runFishLoop pid ppos food fed fs1).2.2
           ++ (runFishLoop pid ppos (runFishLoop pid ppos food fed fs1).1
                (runFishLoop pid ppos food fed fs1).2.1 fs2).2.2) := by
  induction fs1 with
  | nil => intro food fed; rfl
  | cons f rest ih =>
    intro food fed
    simp only [List.cons_append, runFishLoop, List.append_eq]
    rw [ih]

lemma stepFish_no_eat (pid : ℕ) (ppos : Vec3) (food : FoodSystem) (fed : List (ℕ × ℕ))
    (f : TankFish) (h : ¬(dist2 f.pos ppos < 9/100 ∧ eatenNow food pid = false)) :
    stepFish pid ppos food fed f = (food, fed, detectOnly ppos f) := by
  simp only [stepFish, TankFish.isChasingFood, detectOnly, if_neg h]
  split <;> rfl

lemma runFishLoop_no_eat (pid : ℕ) (ppos : Vec3) (fs : List TankFish) (food : FoodSystem)
    (h : ∀ f ∈ fs, ¬(dist2 f.pos ppos < 9/100 ∧ eatenNow food pid = false)) :
    ∀ fed, runFishLoop pid ppos food fed fs = (food, fed, fs.map (detectOnly ppos)) := by
  induction fs with
  | nil => intro fed; rfl
  | cons f rest ih =>
    intro fed
    have hstep := stepFish_no_eat pid ppos food fed f (h f (by simp))
    simp only [runFishLoop, hstep, List.map_cons]
    rw [ih (fun g hg => h g (by simp [hg]))]

/-- C1 amended: when the fish list splits as pre ++ f0 :: post with every
fish in pre outside the eat threshold and f0 inside it, the inner pass
over one live particle gives the nutrition to f0 alone (exactly one
fishFed emission, for the first within-threshold fish in iteration
order) and marks and removes the particle immediately, so no later fish
eats it; however every other fish only takes the detection branch, and a
later fish within the threshold that is not already chasing food still
acquires the eaten particle position as its food target in the same pass
(its squared distance, below 9/100, is within any detection radius of at
least 3/10). -/
theorem first_fish_eats_particle (pid : ℕ) (p : FoodParticle) (food : FoodSystem)
    (fed : List (ℕ × ℕ)) (pre post : List TankFish) (f0 : TankFish)
    (hobj : food.obj pid = some p) (hpe : p.eaten = false) (hnut : 0 < p.nutritionValue)
    (hpre : ∀ f ∈ pre, ¬(dist2 f.pos p.pos < 9/100))
    (hf0 : dist2 f0.pos p.pos < 9/100) :
    runFishLoop pid p.pos food fed (pre ++ f0 :: post)
      = ((food.markEaten pid).removeFoodParticle pid,
         fed ++ [(f0.fid, pid)],
         pre.map (detectOnly p.pos) ++ f0 :: post.map (detectOnly p.pos))
    ∧ ∀ g ∈ post, dist2 g.pos p.pos < 9/100 → g.chasingFood = false →
        (3/10 : ℚ) ≤ g.foodDetectionRadius → (detectOnly p.pos g).foodTarget = some p.pos := by
  have hpre2 : ∀ f ∈ pre, ¬(dist2 f.pos p.pos < 9/100 ∧ eatenNow food pid = false) :=
    fun f hf hand => hpre f hf hand.1
  have h1 := runFishLoop_no_eat pid p.pos pre food hpre2 fed
  have heaten0 : eatenNow food pid = false := by simp [eatenNow, hobj, hpe]
  have heat : food.eatFoodParticle pid
      = (p.nutritionValue, (food.markEaten pid).removeFoodParticle pid) := by
    simp [FoodSystem.eatFoodParticle, hobj, hpe]
  have hstep0 : stepFish pid p.pos food fed f0
      = ((food.markEaten pid).removeFoodParticle pid, fed ++ [(f0.fid, pid)], f0) := by
    simp only [stepFish]
    rw [if_pos ⟨hf0, heaten0⟩, heat]
    simp [hnut]
  have hobj2 : ((food.markEaten pid).removeFoodParticle pid).obj pid
      = some { p with eaten := true } := by
    rw [FoodSystem.obj_removeFoodParticle, FoodSystem.obj_markEaten, hobj]
    rfl
  have heaten2 : eatenNow ((food.markEaten pid).removeFoodParticle pid) pid = true := by
    simp [eatenNow, hobj2]
  have hpost : ∀ g ∈ post,
      ¬(dist2 g.pos p.pos < 9/100
        ∧ eatenNow ((food.markEaten pid).removeFoodParticle pid) pid = false) := by
    intro g hg hand
    rw [heaten2] at hand
    exact absurd hand.2 (by simp)
  have h2 := runFishLoop_no_eat pid p.pos post
    ((food.markEaten pid).removeFoodParticle pid) hpost (fed ++ [(f0.fid, pid)])
  constructor
  · rw [runFishLoop_append pid p.pos pre (f0 :: post) food fed, h1]
    simp only [runFishLoop, hstep0]
    rw [h2]
  · intro g hg hwit hch hr
    have hcond : dist2 g.pos p.pos ≤ g.foodDetectionRadius * g.foodDetectionRadius
        ∧ g.chasingFood = false := by
      refine ⟨by nlinarith, hch⟩
    simp [detectOnly, hcond, TankFish.setFoodTarget]

/-- Concrete particle and fish for the C1 counterexample: one uneaten
particle at the origin, two fish inside the 0.3 eat threshold, neither
chasing food. -/
def particleEx : FoodParticle :=
  { pid := 0, age := 0, eaten := false, nutritionValue := 2, pos := (0, 0, 0) }

def foodSysC1 : FoodSystem :=
  { heap := [particleEx], arr := [0], maxFoodParticles := 50, nextPid := 1 }

def tankFishA : TankFish :=
  { fid := 1, pos := (0, 0, 0), foodDetectionRadius := 2,
    chasingFood := false, foodTarget := none }

def tankFishB : TankFish :=
  { fid := 2, pos := (1/10, 0, 0), foodDetectionRadius := 2,
    chasingFood := false, foodTarget := none }

def tankStateEx : TankState :=
  { food := foodSysC1, fishes := [tankFishA, tankFishB], fedEvents := [] }

/-- The food system after the particle has been eaten. -/
def foodAfterEx : FoodSystem := (foodSysC1.markEaten 0).removeFoodParticle 0

lemma stepFish_tankFishA :
    stepFish 0 (0, 0, 0) foodSysC1 [] tankFishA = (foodAfterEx, [(1, 0)], tankFishA) := by
  have heat : foodSysC1.eatFoodParticle 0 = (2, foodAfterEx) := rfl
  simp only [stepFish]
  rw [if_pos ⟨by norm_num [dist2, tankFishA], rfl⟩, heat]
  rw [if_pos (by norm_num)]
  rfl

lemma stepFish_tankFishB :
    stepFish 0 (0, 0, 0) foodAfterEx [(1, 0)] tankFishB
      = (foodAfterEx, [(1, 0)], tankFishB.setFoodTarget (0, 0, 0)) := by
  have hne : ¬(dist2 tankFishB.pos (0, 0, 0) < 9/100 ∧ eatenNow foodAfterEx 0 = false) := by
    intro hand
    have h2 := hand.2
    rw [show eatenNow foodAfterEx 0 = true from rfl] at h2
    simp at h2
  simp only [stepFish]
  rw [if_neg hne, if_pos ⟨by norm_num [dist2, tankFishB], rfl⟩]

lemma runFishLoop_tankStateEx :
    runFishLoop 0 (0, 0, 0) foodSysC1 [] [tankFishA, tankFishB]
      = (foodAfterEx, [(1, 0)], [tankFishA, tankFishB.setFoodTarget (0, 0, 0)]) := by
  simp only [runFishLoop, stepFish_tankFishA, stepFish_tankFishB]

lemma updateFoodFishInteractions_tankStateEx :
    updateFoodFishInteractions tankStateEx
      = { food := foodAfterEx,
          fishes := [tankFishA, tankFishB.setFoodTarget (0, 0, 0)],
          fedEvents := [(1, 0)] } := by
  have hsnap : tankStateEx.food.getFoodParticles.map FoodParticle.pid = [0] := rfl
  have hobj : tankStateEx.food.obj 0 = some particleEx := rfl
  unfold updateFoodFishInteractions
  rw [hsnap]
  simp only [List.foldl_cons, List.foldl_nil, hobj]
  have hpos : particleEx.pos = (0, 0, 0) := rfl
  have heaten : particleEx.eaten = false := rfl
  rw [heaten]
  simp only [Bool.false_eq_true, if_false, hpos]
  have hfood : tankStateEx.food = foodSysC1 := rfl
  have hfish : tankStateEx.fishes = [tankFishA, tankFishB] := rfl
  have hfed : tankStateEx.fedEvents = [] := rfl
  rw [hfood, hfish, hfed, runFishLoop_tankStateEx]

/-- C1 counterexample: with two fish inside the eat threshold of one
uneaten particle, exactly one fishFed event fires (for fish 1, the first
in iteration order), but the second fish DOES acquire the now-eaten
particle position as its food target in the same pass, contrary to the
claim that the target-acquisition logic of the other entities does not
fire for the now-eaten particle. -/
theorem second_fish_targets_eaten_particle :
    dist2 tankFishA.pos particleEx.pos < 9/100
    ∧ dist2 tankFishB.pos particleEx.pos < 9/100
    ∧ particleEx.eaten = false
    ∧ (updateFoodFishInteractions tankStateEx).fedEvents = [(1, 0)]
    ∧ (updateFoodFishInteractions tankStateEx).fishes
        = [tankFishA, { tankFishB with chasingFood := true, foodTarget := some (0, 0, 0) }] := by
  refine ⟨by norm_num [dist2, tankFishA, particleEx], by norm_num [dist2, tankFishB, particleEx],
    rfl, ?_, ?_⟩
  · rw [updateFoodFishInteractions_tankStateEx]
  · rw [updateFoodFishInteractions_tankStateEx]
    rfl

/-- Witness for the amended C1 theorem at concrete inputs: an empty
prefix, an eater at the particle position and one later fish inside the
threshold. -/
theorem first_fish_eats_particle_witness :
    runFishLoop 0 particleEx.pos foodSysC1 [] ([] ++ tankFishA :: [tankFishB])
      = ((foodSysC1.markEaten 0).removeFoodParticle 0,
         [] ++ [(1, 0)],
         List.map (detectOnly particleEx.pos) [] ++ tankFishA
           :: List.map (detectOnly particleEx.pos) [tankFishB])
    ∧ ∀ g ∈ [tankFishB],
        dist2 g.pos particleEx.pos < 9/100 → g.chasingFood = false →
        (3/10 : ℚ) ≤ g.foodDetectionRadius →
        (detectOnly particleEx.pos g).foodTarget = some particleEx.pos :=
  first_fish_eats_particle 0 particleEx foodSysC1 [] [] [tankFishB] tankFishA
    rfl rfl (by norm_num [particleEx]) (by simp) (by norm_num [dist2, tankFishA, particleEx])

/-! ## Entity registry selection (src/fish/FishSystem.ts selectFish / deselectFish) -/

/-- Selection-related events emitted by the registry. -/
inductive SelEvent where
  | fishSelected (fid : ℕ)
  | fishDeselected
deriving Repr, DecidableEq

/-- The registry view of one fish: identity and selected flag. -/
structure SelFish where
  fid : ℕ
  isSelected : Bool
deriving Repr, DecidableEq

/-- The registry: the fish collection and the tracked selected fish. -/
structure FishSystem where
  fish : List SelFish
  selectedFish : Option ℕ
deriving Repr, DecidableEq

/-- Calling setSelected(b) on the fish with the given identity. -/
def FishSystem.setSelectedFlag (s : FishSystem) (fid : ℕ) (b : Bool) : FishSystem :=
  { s with fish := s.fish.map (fun f => if f.fid == fid then { f with isSelected := b } else f) }

/-- FishSystem.selectFish(fish): clears the selected flag on the
previously selected fish (emitting nothing for it), stores the new fish
as selected, raises its flag, and emits exactly one fishSelected event. -/
def FishSystem.selectFish (s : FishSystem) (fid : ℕ) : FishSystem × List SelEvent :=
  let s1 :=
    match s.selectedFish with
    | some prev => s.setSelectedFlag prev false
    | none => s
  ({ s1.setSelectedFlag fid true with selectedFish := some fid },
   [SelEvent.fishSelected fid])

/-- FishSystem.deselectFish(): if a fish is selected, clears its flag,
clears the tracked selection and emits one fishDeselected event. -/
def FishSystem.deselectFish (s : FishSystem) : FishSystem × List SelEvent :=
  match s.selectedFish with
  | some prev =>
    ({ s.setSelectedFlag prev false with selectedFish := none }, [SelEvent.fishDeselected])
  | none => (s, [])

/-- FishSystem.getSelectedFish(). -/
def FishSystem.getSelectedFish (s : FishSystem) : Option ℕ := s.selectedFish

/-- Well-formedness tying the per-fish flags to the tracked selection:
only the tracked fish may carry a raised flag. -/
def FishSystem.selInv (s : FishSystem) : Prop :=
  ∀ f ∈ s.fish, f.isSelected = true → s.selectedFish = some f.fid

/-- Concrete registry with fish 1 selected, for the C2 counterexample. -/
def selSysEx : FishSystem :=
  { fish := [{ fid := 1, isSelected := true }, { fid := 2, isSelected := false }],
    selectedFish := some 1 }

/-- C2 counterexample: selecting fish 2 while fish 1 is selected emits
only the fishSelected event for fish 2 and no fishDeselected event at
all, contrary to the claim that exactly one deselect event for the
previous fish precedes the select event. -/
theorem selectFish_emits_no_deselect :
    selSysEx.selectedFish = some 1
    ∧ (selSysEx.selectFish 2).2 = [SelEvent.fishSelected 2]
    ∧ SelEvent.fishDeselected ∉ (selSysEx.selectFish 2).2 := by
  refine ⟨rfl, rfl, by decide⟩

lemma FishSystem.selectFish_eq (s : FishSystem) (a b : ℕ) (hsel : s.selectedFish = some a) :
    s.selectFish b
      = ({ (s.setSelectedFlag a false).setSelectedFlag b true with selectedFish := some b },
         [SelEvent.fishSelected b]) := by
  simp only [FishSystem.selectFish, hsel]

lemma FishSystem.mem_setSelectedFlag (s : FishSystem) (i : ℕ) (b : Bool) (g : SelFish)
    (hg : g ∈ (s.setSelectedFlag i b).fish) :
    ∃ f ∈ s.fish, g = (if f.fid == i then { f with isSelected := b } else f) := by
  simp only [FishSystem.setSelectedFlag, List.mem_map] at hg
  obtain ⟨f, hf, rfl⟩ := hg
  exact ⟨f, hf, rfl⟩

/-- C2 amended: selecting fish b while fish a is selected (a different
from b, with the flags consistent with the tracked selection and
distinct identities) emits exactly one fishSelected event for b and no
fishDeselected event; afterwards getSelectedFish returns b, the flag
consistency invariant is preserved, and at most one fish in the registry
carries a raised selected flag.  The previous fish is deselected only by
the silent flag clear, never by an event. -/
theorem selectFish_switches_selection (s : FishSystem) (a b : ℕ)
    (hsel : s.selectedFish = some a) (hab : a ≠ b) (hinv : s.selInv)
    (hnd : (s.fish.map SelFish.fid).Nodup) :
    (s.selectFish b).2 = [SelEvent.fishSelected b]
    ∧ SelEvent.fishDeselected ∉ (s.selectFish b).2
    ∧ (s.selectFish b).1.getSelectedFish = some b
    ∧ (s.selectFish b).1.selInv
    ∧ (s.selectFish b).1.fish.countP (fun f => f.isSelected) ≤ 1 := by
  have hba : b ≠ a := Ne.symm hab
  rw [FishSystem.selectFish_eq s a b hsel]
  have hinv2 : ∀ g ∈ ((s.setSelectedFlag a false).setSelectedFlag b true).fish,
      g.isSelected = true → g.fid = b := by
    simp only [FishSystem.setSelectedFlag, List.map_map, List.mem_map]
    rintro g ⟨f, hf, rfl⟩ hgsel
    by_cases hfa : f.fid = a
    · have hfb : f.fid ≠ b := fun h => hab (hfa ▸ h)
      simp [Function.comp_apply, hfa, hfb, hab, hba] at hgsel
    · by_cases hfb : f.fid = b
      · simp [Function.comp_apply, hfa, hfb, hab, hba]
      · simp only [Function.comp_apply, beq_iff_eq, hfa, hfb, if_false] at hgsel ⊢
        have hsome := hinv f hf hgsel
        rw [hsel] at hsome
        exact absurd (Option.some.inj hsome).symm hfa
  refine ⟨rfl, by simp, rfl, ?_, ?_⟩
  · intro g hg hgsel
    have := hinv2 g hg hgsel
    simp [this]
  · have hfid : (((s.setSelectedFlag a false).setSelectedFlag b true).fish.map SelFish.fid)
        = s.fish.map SelFish.fid := by
      simp only [FishSystem.setSelectedFlag, List.map_map]
      apply List.map_congr_left
      intro f hf
      by_cases hfa : f.fid = a
      · have hfb : f.fid ≠ b := fun h => hab (hfa ▸ h)
        simp [Function.comp_apply, hfa, hfb, hab, hba]
      · by_cases hfb : f.fid = b <;> simp [Function.comp_apply, hfa, hfb, hab, hba]
    calc ((s.setSelectedFlag a false).setSelectedFlag b true).fish.countP
            (fun f => f.isSelected)
        ≤ ((s.setSelectedFlag a false).setSelectedFlag b true).fish.countP
            (fun f => f.fid == b) := by
          apply List.countP_mono_left
          intro g hg hgsel
          simp only [beq_iff_eq]
          exact hinv2 g hg (by simpa using hgsel)
      _ = (((s.setSelectedFlag a false).setSelectedFlag b true).fish.map SelFish.fid).count b := by
          rw [List.count_eq_countP, List.countP_map]
          rfl
      _ = (s.fish.map SelFish.fid).count b := by rw [hfid]
      _ ≤ 1 := List.nodup_iff_count_le_one.mp hnd b

/-- Witness for the amended C2 theorem at the concrete registry. -/
theorem selectFish_switches_selection_witness :
    (selSysEx.selectFish 2).2 = [SelEvent.fishSelected 2]
    ∧ SelEvent.fishDeselected ∉ (selSysEx.selectFish 2).2
    ∧ (selSysEx.selectFish 2).1.getSelectedFish = some 2
    ∧ (selSysEx.selectFish 2).1.selInv
    ∧ (selSysEx.selectFish 2).1.fish.countP (fun f => f.isSelected) ≤ 1 :=
  selectFish_switches_selection selSysEx 1 2 rfl (by decide)
    (by intro f hf hs; fin_cases hf <;> simp_all [selSysEx]) (by decide)

/-! ## Event bus dispatch (src/core/EventSystem.ts processEvent / on / off)

processEvent fetches the handler array for the event type once and
iterates it with Array.prototype.forEach while handlers may mutate the
same array through on (push) and off (indexOf plus splice).  A handler
is embedded as an identity together with the subscription mutations it
performs on the dispatched type when invoked; forEach is embedded with
its JavaScript semantics: the iteration bound is the array length at the
start, each index is skipped when it no longer exists, and the element
read at an index is the current one. -/

/-- A subscription mutation a handler performs on the handler array of
the currently dispatched event type. -/
inductive HOp where
  | subOff (i : ℕ)
  | subOn (i : ℕ)
deriving Repr, DecidableEq

/-- A subscribed handler: its identity and the mutations its body
performs (a handler subscribed during dispatch is inert). -/
structure Handler where
  hid : ℕ
  ops : List HOp
deriving Repr, DecidableEq

/-- Remove the first handler with the given identity, as off() does with
indexOf plus splice. -/
def removeFirstHandler : List Handler → ℕ → List Handler
  | [], _ => []
  | h :: t, i => if h.hid = i then t else h :: removeFirstHandler t i

/-- EventSystem.on / EventSystem.off restricted to the dispatched type:
on pushes a (new, inert) handler, off splices out the first handler with
the identity. -/
def applyHOp (hs : List Handler) : HOp → List Handler
  | HOp.subOff i => removeFirstHandler hs i
  | HOp.subOn i => hs ++ [{ hid := i, ops := [] }]

/-- The forEach loop of processEvent: len is captured before the loop,
index k advances from 0; a missing index is skipped, otherwise the
current element at k is invoked (recorded) and its mutations applied. -/
def dispatchAux : ℕ → ℕ → List Handler → List ℕ → List Handler × List ℕ
  | 0, _, hs, invoked => (hs, invoked)
  | fuel + 1, k, hs, invoked =>
    match hs[k]? with
    | none => dispatchAux fuel (k + 1) hs invoked
    | some h => dispatchAux fuel (k + 1) (h.ops.foldl applyHOp hs) (invoked ++ [h.hid])

/-- EventSystem.processEvent for one event type: forEach over the live
handler array, starting at index 0 with the initial length as bound. -/
def processEventHandlers (hs : List Handler) : List Handler × List ℕ :=
  dispatchAux hs.length 0 hs []

lemma dispatchAux_no_ops (fuel : ℕ) :
    ∀ (k : ℕ) (hs : List Handler) (invoked : List ℕ), (∀ h ∈ hs, h.ops = []) →
      dispatchAux fuel k hs invoked
        = (hs, invoked ++ ((hs.drop k).take fuel).map Handler.hid) := by
  induction fuel with
  | zero => intro k hs invoked hops; simp [dispatchAux]
  | succ n ih =>
    intro k hs invoked hops
    cases hk : hs[k]? with
    | none =>
      have hlen : hs.length ≤ k := List.getElem?_eq_none_iff.mp hk
      simp only [dispatchAux, hk]
      rw [ih (k + 1) hs invoked hops]
      rw [List.drop_eq_nil_of_le hlen, List.drop_eq_nil_of_le (Nat.le_succ_of_le hlen)]
      simp
    | some h =>
      have hmem : h ∈ hs := List.getElem?_mem hk
      have hlt : k < hs.length := by
        by_contra hge
        rw [List.getElem?_eq_none_iff.mpr (Nat.le_of_not_lt hge)] at hk
        cases hk
      simp only [dispatchAux, hk, hops h hmem, List.foldl_nil]
      rw [ih (k + 1) hs (invoked ++ [h.hid]) hops]
      have hdrop : hs.drop k = h :: hs.drop (k + 1) := by
        rw [List.drop_eq_getElem_cons hlt]
        congr
        have := List.getElem?_eq_getElem hlt
        rw [this] at hk
        exact Option.some.inj hk
      rw [hdrop]
      simp [List.append_assoc]

/-- C3 amended: the handler array is iterated live, not snapshotted.
When no invoked handler subscribes or unsubscribes handlers of the
dispatched type, the handlers invoked in the pass are exactly those
subscribed at its start, in subscription order, and the array is
unchanged; the separate counterexample shows that an unsubscribing
handler removes a not-yet-visited handler from the current pass. -/
theorem processEvent_snapshot_when_no_mutation (hs : List Handler)
    (hops : ∀ h ∈ hs, h.ops = []) :
    (processEventHandlers hs).2 = hs.map Handler.hid
    ∧ (processEventHandlers hs).1 = hs := by
  unfold processEventHandlers
  rw [dispatchAux_no_ops hs.length 0 hs [] hops]
  simp

/-- Handlers for the C3 counterexample: handler 0 unsubscribes handler 1
during its own execution. -/
def handlersEx : List Handler :=
  [{ hid := 0, ops := [HOp.subOff 1] }, { hid := 1, ops := [] }]

/-- C3 counterexample: with handler 0 unsubscribing handler 1 of the
same type during dispatch, only handler 0 runs; the set of handlers
invoked is not the set subscribed at the start of the pass, so a handler
CAN change which remaining handlers run in the current pass. -/
theorem handler_unsubscribe_skips_remaining :
    (processEventHandlers handlersEx).2 = [0]
    ∧ (processEventHandlers handlersEx).2 ≠ handlersEx.map Handler.hid
    ∧ handlersEx.map Handler.hid = [0, 1] := by
  refine ⟨by decide, by decide, by decide⟩

/-- Witness for the amended C3 theorem on two mutation-free handlers. -/
theorem processEvent_snapshot_when_no_mutation_witness :
    (processEventHandlers [{ hid := 5, ops := [] }, { hid := 7, ops := [] }]).2
      = [({ hid := 5, ops := [] } : Handler), { hid := 7, ops := [] }].map Handler.hid
    ∧ (processEventHandlers [{ hid := 5, ops := [] }, { hid := 7, ops := [] }]).1
      = [{ hid := 5, ops := [] }, { hid := 7, ops := [] }] :=
  processEvent_snapshot_when_no_mutation
    [{ hid := 5, ops := [] }, { hid := 7, ops := [] }] (by decide)

/-! ## Event bus queue drain (src/core/EventSystem.ts emit / update)

For the drain semantics an event is reduced to its type tag; the
combined queued emissions performed by the handlers of one event type
during its dispatch are a function from the type to the list of types it
pushes (in order) onto the live queue. -/

structure EventSystem where
  eventQueue : List String
  isProcessing : Bool
deriving Repr, DecidableEq

/-- EventSystem.emit: queued delivery, pushes the event. -/
def EventSystem.emit (s : EventSystem) (e : String) : EventSystem :=
  { s with eventQueue := s.eventQueue ++ [e] }

/-- EventSystem.update: returns early when a drain is in progress or the
queue is empty; otherwise snapshots the queue, clears it, dispatches the
snapshot in order (handlers pushing their queued emissions onto the now
cleared queue) and resets the drain guard.  The returned list is the
sequence of events dispatched by this call. -/
def EventSystem.update (emits : String → List String) (s : EventSystem) :
    EventSystem × List String :=
  if s.isProcessing || s.eventQueue.isEmpty then (s, [])
  else
    ({ eventQueue := s.eventQueue.foldl (fun q e => q ++ emits e) [], isProcessing := false },
     s.eventQueue)

lemma foldl_append_emits (emits : String → List String) (l : List String) :
    ∀ acc, l.foldl (fun q e => q ++ emits e) acc = acc ++ (l.map emits).flatten := by
  induction l with
  | nil => intro acc; simp
  | cons e t ih =>
    intro acc
    simp only [List.foldl_cons, List.map_cons, List.flatten, ih (acc ++ emits e)]
    simp [List.append_assoc]

lemma EventSystem.update_processed (emits : String → List String) (t : EventSystem)
    (h : t.isProcessing = false) : (t.update emits).2 = t.eventQueue := by
  unfold EventSystem.update
  rw [h]
  cases hq : t.eventQueue.isEmpty with
  | true => simp [List.isEmpty_iff.mp hq]
  | false => simp

lemma EventSystem.update_state (emits : String → List String) (t : EventSystem)
    (h : t.isProcessing = false) :
    (t.update emits).1.eventQueue = (t.eventQueue.map emits).flatten
    ∧ (t.update emits).1.isProcessing = false := by
  unfold EventSystem.update
  rw [h]
  cases hq : t.eventQueue.isEmpty with
  | true => simp [List.isEmpty_iff.mp hq, h]
  | false => simp [foldl_append_emits]

/-- C4: events published (queued) by handlers during a drain are not
dispatched in that drain; the drain dispatches exactly the queue
snapshotted at its start, the nested emissions remain queued afterwards
and are exactly what the next update call dispatches, and the drain
guard makes a re-entrant update call during a drain a no-op, so at most
one drain is in progress at a time. -/
theorem update_defers_nested_emissions (emits : String → List String) (s : EventSystem) :
    (s.isProcessing = true → s.update emits = (s, []))
    ∧ (s.isProcessing = false →
        (s.update emits).2 = s.eventQueue
        ∧ (s.update emits).1.eventQueue = (s.eventQueue.map emits).flatten
        ∧ (s.update emits).1.isProcessing = false
        ∧ ((s.update emits).1.update emits).2 = (s.eventQueue.map emits).flatten) := by
  constructor
  · intro h
    unfold EventSystem.update
    rw [h]
    simp
  · intro h
    obtain ⟨hq, hp⟩ := EventSystem.update_state emits s h
    refine ⟨EventSystem.update_processed emits s h, hq, hp, ?_⟩
    rw [EventSystem.update_processed emits _ hp, hq]

/-- Concrete bus state for the C4 witness: one queued event whose
handler publishes a nested event during the drain. -/
def busEx : EventSystem := { eventQueue := ["feedFish"], isProcessing := false }

/-- Handler emissions for the C4 witness: the feedFish handlers publish
one queued fishFed event; fishFed handlers publish nothing. -/
def emitsEx (e : String) : List String := if e = "feedFish" then ["fishFed"] else []

/-- Witness for C4 at the concrete bus state. -/
theorem update_defers_nested_emissions_witness :
    (busEx.update emitsEx).2 = busEx.eventQueue
    ∧ (busEx.update emitsEx).1.eventQueue = (busEx.eventQueue.map emitsEx).flatten
    ∧ (busEx.update emitsEx).1.isProcessing = false
    ∧ ((busEx.update emitsEx).1.update emitsEx).2 = (busEx.eventQueue.map emitsEx).flatten :=
  (update_defers_nested_emissions emitsEx busEx).2 rfl

/-! ## Economy and progression (src/game/GameLogic.ts)

Coin amounts are integers (every reward in the source is an integer:
5..9, 3..5, 10..19, the 50 achievement bonus, the level*25 level bonus,
and the costs 20 and 50 + 25*fishCount).  The random part of each reward
is a parameter r of the operation (Math.floor of a scaled random). -/

structure PlayerStats where
  coins : ℤ
  level : ℕ
  totalCoinsEarned : ℤ
  fishFed : ℕ
  tanksCleaned : ℕ
  fishPetted : ℕ
deriving Repr, DecidableEq

structure GameState where
  player : PlayerStats
  fishCount : ℕ
  achFirstFishFed : Bool
  achFishLover : Bool
  achAquariumMaster : Bool
  achCleanKeeper : Bool
  achPetWhisperer : Bool
  achMultiFish : Bool
  achCoinCollector : Bool
deriving Repr, DecidableEq

/-- One achievement check: fires when the flag is still down and the
threshold condition holds, contributing one 50-coin bonus. -/
def achUpdate (flag : Bool) (cond : Prop) [Decidable cond] : Bool × ℕ :=
  if flag = false ∧ cond then (true, 1) else (flag, 0)

/-- GameLogic.checkAchievements: runs the fixed table of threshold
checks, latches each fired flag, and awards 50 bonus coins (counted into
cumulative earnings too) per newly unlocked achievement. -/
def GameLogic.checkAchievements (g : GameState) : GameState :=
  let a1 := achUpdate g.achFirstFishFed (1 ≤ g.player.fishFed)
  let a2 := achUpdate g.achFishLover (10 ≤ g.player.fishFed)
  let a3 := achUpdate g.achAquariumMaster (100 ≤ g.player.fishFed)
  let a4 := achUpdate g.achCleanKeeper (5 ≤ g.player.tanksCleaned)
  let a5 := achUpdate g.achPetWhisperer (25 ≤ g.player.fishPetted)
  let a6 := achUpdate g.achMultiFish (3 ≤ g.fishCount)
  let a7 := achUpdate g.achCoinCollector ((1000 : ℤ) ≤ g.player.totalCoinsEarned)
  let newCount : ℕ := a1.2 + a2.2 + a3.2 + a4.2 + a5.2 + a6.2 + a7.2
  { g with
    player := { g.player with
      coins := g.player.coins + 50 * newCount,
      totalCoinsEarned := g.player.totalCoinsEarned + 50 * newCount },
    achFirstFishFed := a1.1, achFishLover := a2.1, achAquariumMaster := a3.1,
    achCleanKeeper := a4.1, achPetWhisperer := a5.1, achMultiFish := a6.1,
    achCoinCollector := a7.1 }

/-- GameLogic.updatePlayerLevel: when cumulative earnings reach
level*100, the level increments and a bonus of 25 times the new level is
granted. -/
def GameLogic.updatePlayerLevel (g : GameState) : GameState :=
  if (g.player.level * 100 : ℤ) ≤ g.player.totalCoinsEarned then
    { g with player := { g.player with
        level := g.player.level + 1,
        coins := g.player.coins + 25 * ((g.player.level : ℤ) + 1),
        totalCoinsEarned := g.player.totalCoinsEarned + 25 * ((g.player.level : ℤ) + 1) } }
  else g

/-- GameLogic.handleFishFed: 5 + r coins (r in 0..4), counter increment,
then achievement and level re-checks. -/
def GameLogic.handleFishFed (r : ℕ) (g : GameState) : GameState :=
  GameLogic.updatePlayerLevel (GameLogic.checkAchievements
    { g with player := { g.player with
        coins := g.player.coins + (5 + r),
        totalCoinsEarned := g.player.totalCoinsEarned + (5 + r),
        fishFed := g.player.fishFed + 1 } })

/-- GameLogic.handleFishPetted: 3 + r coins (r in 0..2). -/
def GameLogic.handleFishPetted (r : ℕ) (g : GameState) : GameState :=
  GameLogic.updatePlayerLevel (GameLogic.checkAchievements
    { g with player := { g.player with
        coins := g.player.coins + (3 + r),
        totalCoinsEarned := g.player.totalCoinsEarned + (3 + r),
        fishPetted := g.player.fishPetted + 1 } })

/-- GameLogic.handleTankCleaned: cleanliness reset aside, 10 + r coins
(r in 0..9) and a counter increment, then the re-checks. -/
def GameLogic.handleTankCleaned (r : ℕ) (g : GameState) : GameState :=
  GameLogic.updatePlayerLevel (GameLogic.checkAchievements
    { g with player := { g.player with
        coins := g.player.coins + (10 + r),
        totalCoinsEarned := g.player.totalCoinsEarned + (10 + r),
        tanksCleaned := g.player.tanksCleaned + 1 } })

/-- GameLogic.handleCleanButton: spends 20 coins only when the balance
covers them (the tankCleaned event it then emits is handled as a
separate operation); otherwise only a warning message is emitted and the
state is unchanged. -/
def GameLogic.handleCleanButton (g : GameState) : GameState :=
  if 20 ≤ g.player.coins then
    { g with player := { g.player with coins := g.player.coins - 20 } }
  else g

/-- GameLogic.handleAddFishButton: the fish costs 50 + 25 per owned
fish; when the balance covers it, the cost is deducted, a fish is added
and achievements re-checked; otherwise the state is unchanged. -/
def GameLogic.handleAddFishButton (g : GameState) : GameState :=
  if (50 + (g.fishCount : ℤ) * 25) ≤ g.player.coins then
    GameLogic.checkAchievements
      { g with
        player := { g.player with coins := g.player.coins - (50 + (g.fishCount : ℤ) * 25) },
        fishCount := g.fishCount + 1 }
  else g

/-- One event-driven economy operation. -/
inductive GameOp where
  | fishFedEv (r : ℕ)
  | fishPettedEv (r : ℕ)
  | tankCleanedEv (r : ℕ)
  | cleanButton
  | addFishButton
deriving Repr, DecidableEq

def GameLogic.applyGameOp (g : GameState) : GameOp → GameState
  | GameOp.fishFedEv r => GameLogic.handleFishFed r g
  | GameOp.fishPettedEv r => GameLogic.handleFishPetted r g
  | GameOp.tankCleanedEv r => GameLogic.handleTankCleaned r g
  | GameOp.cleanButton => GameLogic.handleCleanButton g
  | GameOp.addFishButton => GameLogic.handleAddFishButton g

def GameLogic.applyGameOps (g : GameState) (ops : List GameOp) : GameState :=
  ops.foldl GameLogic.applyGameOp g

/-- The initial state built by the engine constructor: 500 coins, level
1, 500 cumulative, zero counters, one initial fish, no achievements. -/
def initialGameState : GameState :=
  { player := { coins := 500, level := 1, totalCoinsEarned := 500,
                fishFed := 0, tanksCleaned := 0, fishPetted := 0 },
    fishCount := 1,
    achFirstFishFed := false, achFishLover := false, achAquariumMaster := false,
    achCleanKeeper := false, achPetWhisperer := false, achMultiFish := false,
    achCoinCollector := false }

/-! ### Coin non-negativity lemmas -/

lemma GameLogic.checkAchievements_coins_le (g : GameState) :
    g.player.coins ≤ (GameLogic.checkAchievements g).player.coins := by
  simp only [GameLogic.checkAchievements]
  exact le_add_of_nonneg_right (by positivity)

lemma GameLogic.updatePlayerLevel_coins_le (g : GameState) :
    g.player.coins ≤ (GameLogic.updatePlayerLevel g).player.coins := by
  unfold GameLogic.updatePlayerLevel
  split
  · exact le_add_of_nonneg_right (by positivity)
  · exact le_refl _

lemma GameLogic.applyGameOp_coins (g : GameState) (op : GameOp)
    (h : 0 ≤ g.player.coins) : 0 ≤ (GameLogic.applyGameOp g op).player.coins := by
  cases op with
  | fishFedEv r =>
    refine le_trans (le_trans ?_ (GameLogic.checkAchievements_coins_le _))
      (GameLogic.updatePlayerLevel_coins_le _)
    simp only []
    positivity
  | fishPettedEv r =>
    refine le_trans (le_trans ?_ (GameLogic.checkAchievements_coins_le _))
      (GameLogic.updatePlayerLevel_coins_le _)
    simp only []
    positivity
  | tankCleanedEv r =>
    refine le_trans (le_trans ?_ (GameLogic.checkAchievements_coins_le _))
      (GameLogic.updatePlayerLevel_coins_le _)
    simp only []
    positivity
  | cleanButton =>
    simp only [GameLogic.applyGameOp, GameLogic.handleCleanButton]
    split
    · simp only []
      omega
    · exact h
  | addFishButton =>
    simp only [GameLogic.applyGameOp, GameLogic.handleAddFishButton]
    split
    · refine le_trans ?_ (GameLogic.checkAchievements_coins_le _)
      simp only []
      omega
    · exact h

/-- C10: the coin balance never becomes negative.  Each spending
operation (clean at cost 20, fish purchase at cost 50 + 25 per owned
fish) first checks the balance and leaves the whole state unchanged when
the balance does not cover the cost; every other coin mutation only adds
a non-negative amount; hence coins stay non-negative under every single
operation, under any operation sequence from a non-negative balance, and
in particular under any operation sequence from the initial 500-coin
state. -/
theorem coins_never_negative (g : GameState) (op : GameOp) (ops : List GameOp) :
    (0 ≤ g.player.coins → 0 ≤ (GameLogic.applyGameOp g op).player.coins)
    ∧ (g.player.coins < 20 → GameLogic.applyGameOp g GameOp.cleanButton = g)
    ∧ (g.player.coins < 50 + (g.fishCount : ℤ) * 25 →
        GameLogic.applyGameOp g GameOp.addFishButton = g)
    ∧ (0 ≤ g.player.coins → 0 ≤ (GameLogic.applyGameOps g ops).player.coins)
    ∧ 0 ≤ (GameLogic.applyGameOps initialGameState ops).player.coins := by
  have hseq : ∀ (l : List GameOp) (t : GameState), 0 ≤ t.player.coins →
      0 ≤ (GameLogic.applyGameOps t l).player.coins := by
    intro l
    induction l with
    | nil => intro t ht; exact ht
    | cons o rest ih =>
      intro t ht
      exact ih (GameLogic.applyGameOp t o) (GameLogic.applyGameOp_coins t o ht)
  refine ⟨GameLogic.applyGameOp_coins g op, ?_, ?_, hseq ops g, hseq ops initialGameState (by norm_num [initialGameState])⟩
  · intro hlt
    simp only [GameLogic.applyGameOp, GameLogic.handleCleanButton]
    rw [if_neg (by omega)]
  · intro hlt
    simp only [GameLogic.applyGameOp, GameLogic.handleAddFishButton]
    rw [if_neg (by omega)]

/-- Witness for C10 on a concrete operation sequence: feed reward, a
paid cleaning, the cleaning reward, a fish purchase and an
unaffordable-purchase attempt from the initial state. -/
theorem coins_never_negative_witness :
    (0 ≤ initialGameState.player.coins →
      0 ≤ (GameLogic.applyGameOp initialGameState (GameOp.fishFedEv 3)).player.coins)
    ∧ (initialGameState.player.coins < 20 →
        GameLogic.applyGameOp initialGameState GameOp.cleanButton = initialGameState)
    ∧ (initialGameState.player.coins < 50 + (initialGameState.fishCount : ℤ) * 25 →
        GameLogic.applyGameOp initialGameState GameOp.addFishButton = initialGameState)
    ∧ (0 ≤ initialGameState.player.coins →
        0 ≤ (GameLogic.applyGameOps initialGameState
          [GameOp.fishFedEv 3, GameOp.cleanButton, GameOp.tankCleanedEv 5,
           GameOp.addFishButton, GameOp.addFishButton]).player.coins)
    ∧ 0 ≤ (GameLogic.applyGameOps initialGameState
        [GameOp.fishFedEv 3, GameOp.cleanButton, GameOp.tankCleanedEv 5,
         GameOp.addFishButton, GameOp.addFishButton]).player.coins :=
  coins_never_negative initialGameState (GameOp.fishFedEv 3)
    [GameOp.fishFedEv 3, GameOp.cleanButton, GameOp.tankCleanedEv 5,
     GameOp.addFishButton, GameOp.addFishButton]
